import Mathlib

/-!
Verification development for the Taipower live generation pipeline
(`live_pipeline_final.py`).  The file shallowly embeds the pipeline's data
model and operations — JSON forecast lookup (`get_forecast_value`), region
inference (`infer_region_from_name` plus the static plant map), weather
enrichment (`get_regional_weather_features`), feed-row parsing, unit-set
diffing, group-by aggregation and idempotent per-table persistence — and
proves the specified properties about them.

Modelling conventions:
* JSON documents are the inductive `JVal`; Python `None` and JSON `null`
  are both `JVal.null` (they coincide under `json.load`).
* Python floats are `PyFloat`: exact rationals together with the special
  values `inf`, `ninf` and `nan`.  Rounding of finite values to IEEE-754
  doubles is idealised away (finite arithmetic is exact rational
  arithmetic); the special values are modelled because `float(str)`
  produces them for textual infinities such as `"inf"`.
* Exceptions are the `Except PyExc` monad; a Python `try/except` block is
  a `match` on the monadic result.
* `pandas.to_datetime(...).tz_convert(TAIWAN_TZ)` is abstracted as an
  oracle `JVal → Option Int` (timestamps as integer minutes); `none`
  models the exceptional outcome (unparsable input, naive timestamps).
-/

/-- A JSON value as produced by `json.load`.  Numbers do not occur in the
forecast documents consumed by the pipeline (all scalar payloads are
strings), so only `null`, strings, arrays and objects are modelled;
object fields keep insertion order, as Python dicts do. -/
inductive JVal where
  | null
  | str (s : String)
  | arr (elems : List JVal)
  | obj (fields : List (String × JVal))

/-- The Python exception classes that can arise in the embedded code. -/
inductive PyExc where
  | keyError | indexError | typeError | valueError | overflowError
deriving DecidableEq

/-- A Python float: an exact rational for finite values, plus the IEEE
special values.  `float(s)` yields `inf`/`ninf`/`nan` for the textual
forms accepted by CPython. -/
inductive PyFloat where
  | finite (q : ℚ)
  | inf
  | ninf
  | nan
deriving DecidableEq

/-- Whether a `PyFloat` is a finite value. -/
def PyFloat.isFinite : PyFloat → Bool
  | .finite _ => true
  | _ => false

/-- Python truthiness of a JSON value: `None`, `""`, `[]` and `{}` are
falsy, everything else truthy. -/
def truthy : JVal → Bool
  | .null => false
  | .str s => !(s == "")
  | .arr xs => !xs.isEmpty
  | .obj fs => !fs.isEmpty

/-- Python `v == k` for a JSON value `v` and a string `k`: true exactly
when `v` is that string. -/
def jEqStr (v : JVal) (k : String) : Bool :=
  match v with
  | .str t => t = k
  | _ => false

/-- Substring test, Python's `needle in haystack` on strings. -/
def strContainsAux (needle : List Char) : List Char → Bool
  | [] => needle.isEmpty
  | c :: cs => needle.isPrefixOf (c :: cs) || strContainsAux needle cs

/-- Python `needle in haystack` for strings. -/
def strContains (haystack needle : String) : Bool :=
  strContainsAux needle.data haystack.data

/-- Python `k in v` (membership test) on a JSON value: key membership for
dicts, element equality for lists, substring for strings, `TypeError`
otherwise. -/
def keyMem (v : JVal) (k : String) : Except PyExc Bool :=
  match v with
  | .obj fs => .ok (fs.any (fun f => f.1 = k))
  | .arr xs => .ok (xs.any (fun x => jEqStr x k))
  | .str s => .ok (strContains s k)
  | .null => .error .typeError

/-- Python `v[k]` for a string key `k`: dict lookup (the `KeyError` branch
is unreachable after a successful membership test), `TypeError` for lists
and strings, `TypeError` for `None`. -/
def getItem (v : JVal) (k : String) : Except PyExc JVal :=
  match v with
  | .obj fs => match fs.lookup k with
    | some x => .ok x
    | none => .error .keyError
  | _ => .error .typeError

/-- Python `v[0]`: head of a list (`IndexError` when empty), first
character of a string, `KeyError` for dicts whose keys are strings,
`TypeError` for `None`. -/
def pyIndex0 : JVal → Except PyExc JVal
  | .arr [] => .error .indexError
  | .arr (x :: _) => .ok x
  | .obj _ => .error .keyError
  | .str s => match s.data with
    | [] => .error .indexError
    | c :: _ => .ok (.str (String.mk [c]))
  | .null => .error .typeError

/-- Python iteration `for x in v`: list elements, dict keys (insertion
order), characters of a string, `TypeError` for `None`. -/
def pyIter : JVal → Except PyExc (List JVal)
  | .arr xs => .ok xs
  | .obj fs => .ok (fs.map (fun f => .str f.1))
  | .str s => .ok (s.data.map (fun c => .str (String.mk [c])))
  | .null => .error .typeError

/-- Source `get_case_insensitive_key(d, key_variants, default)`: return
`d[k]` for the first key variant `k` with `k in d`, else the default. -/
def get_case_insensitive_key (d : JVal) : List String → JVal → Except PyExc JVal
  | [], dflt => .ok dflt
  | k :: ks, dflt => do
    let m ← keyMem d k
    if m then getItem d k else get_case_insensitive_key d ks dflt

/-- The leftmost `next(...)` search of a generator expression whose
predicate may itself raise. -/
def pyFindM (p : JVal → Except PyExc Bool) : List JVal → Except PyExc (Option JVal)
  | [] => .ok none
  | x :: xs => do
    if (← p x) then .ok (some x) else pyFindM p xs

/-- The whitespace characters stripped by Python's `float` (ASCII; the
extra unicode whitespace accepted by CPython is not modelled, no pipeline
input contains it). -/
def isPyWs (c : Char) : Bool :=
  c = ' ' || c = '\t' || c = '\n' || c = '\r' || c = '\x0b' || c = '\x0c'

/-- Strip leading and trailing `float`-whitespace. -/
def stripPyWs (cs : List Char) : List Char :=
  ((cs.dropWhile isPyWs).reverse.dropWhile isPyWs).reverse

/-- Numeric value of a list of ASCII digits. -/
def digitsToNat (cs : List Char) : Nat :=
  cs.foldl (fun n c => 10 * n + (c.toNat - 48)) 0

/-- Lower-case an ASCII letter. -/
def lowerAscii (c : Char) : Char :=
  if 'A' ≤ c ∧ c ≤ 'Z' then Char.ofNat (c.toNat + 32) else c

/-- Parse the exponent suffix of a float literal: empty, or
`(e|E)[+-]?digits`. -/
def parseExpSuffix : List Char → Option ℤ
  | [] => some 0
  | e :: rest =>
    if e = 'e' ∨ e = 'E' then
      let (eneg, rest2) : Bool × List Char :=
        match rest with
        | '+' :: r => (false, r)
        | '-' :: r => (true, r)
        | r => (false, r)
      let (d3, r3) := rest2.span Char.isDigit
      if d3.isEmpty ∨ !r3.isEmpty then none
      else some (if eneg then -(digitsToNat d3 : ℤ) else (digitsToNat d3 : ℤ))
    else none

/-- Parse the unsigned decimal body accepted by Python's `float`:
`digits[.digits][exp]`, `.digits[exp]` or `digits.[exp]` (at least one
digit overall; digit-group underscores are not modelled, no pipeline
input contains them). -/
def parseDecimalCore (cs : List Char) : Option ℚ :=
  let (d1, r1) := cs.span Char.isDigit
  let (d2, r2) : List Char × List Char :=
    match r1 with
    | '.' :: rest => rest.span Char.isDigit
    | _ => ([], r1)
  if d1.isEmpty ∧ d2.isEmpty then none
  else
    match parseExpSuffix r2 with
    | none => none
    | some e =>
      some (((digitsToNat d1 : ℚ) + (digitsToNat d2 : ℚ) / (10 : ℚ) ^ d2.length)
        * (10 : ℚ) ^ e)

/-- Python `float(s)` on a string: strip whitespace, optional sign, then
either a textual infinity / nan or a decimal literal; `none` models the
`ValueError` outcome.  Overflow of huge finite decimals to `inf` is not
modelled. -/
def pyFloatOfStr (s : String) : Option PyFloat :=
  let cs := stripPyWs s.data
  let (neg, body) : Bool × List Char :=
    match cs with
    | '-' :: r => (true, r)
    | '+' :: r => (false, r)
    | r => (false, r)
  let low := body.map lowerAscii
  if low = "inf".data ∨ low = "infinity".data then some (if neg then .ninf else .inf)
  else if low = "nan".data then some .nan
  else
    match parseDecimalCore body with
    | some q => some (.finite (if neg then -q else q))
    | none => none

/-- Python `float(v)` on a JSON value: strings parse or raise
`ValueError`; `None`, lists and dicts raise `TypeError`. -/
def pyFloatOfJVal (v : JVal) : Except PyExc PyFloat :=
  match v with
  | .str s =>
    match pyFloatOfStr s with
    | some f => .ok f
    | none => .error .valueError
  | _ => .error .typeError

/-- First maximal run of ASCII digits in a string:
`re.findall(r'\d+', s)[0]` (unicode digits beyond ASCII not modelled). -/
def firstDigitRun (cs : List Char) : Option (List Char) :=
  let t := cs.dropWhile (fun c => !c.isDigit)
  let ds := t.takeWhile Char.isDigit
  if ds.isEmpty then none else some ds

/-- The guard `str(value_str).strip() and str(value_str) != '-'`: for
lists and dicts `str(...)` is a nonempty repr distinct from `"-"`, so the
guard passes; only the string content matters for string values
(`str.strip()` is modelled over ASCII whitespace, like `float`). -/
def pyStrGuard : JVal → Bool
  | .null => true
  | .str s => !(stripPyWs s.data).isEmpty && !(s == "-")
  | .arr _ => true
  | .obj _ => true

/-- Value extraction from a selected time block (source lines 137-155):
read `elementValue`, take its first entry, pick the value field
(`WeatherCode` for the weather-phenomenon element, otherwise the first
dict value), and convert it with `float`, falling back to the first
embedded digit run on `ValueError` (an absent digit run raises
`IndexError`, caught by the enclosing handler). -/
def extractBlockValue (element_name : String) (cb : JVal) :
    Except PyExc (Option PyFloat) := do
  let ev ← get_case_insensitive_key cb ["elementValue", "ElementValue"] (.arr [])
  if !truthy ev then return none
  let value_dict ← pyIndex0 ev
  let value_str ←
    if element_name = "天氣現象" then
      get_case_insensitive_key value_dict ["WeatherCode", "weathercode"] .null
    else
      pure (match value_dict with
        | .obj (f :: _) => f.2
        | _ => JVal.null)
  match value_str with
  | .null => return none
  | v =>
    if pyStrGuard v then
      match pyFloatOfJVal v with
      | .ok f => return some f
      | .error .valueError =>
        match v with
        | .str s =>
          match firstDigitRun s.data with
          | some ds => return some (.finite (digitsToNat ds))
          | none => throw .indexError
        | _ => throw .typeError
      | .error e => throw e
    else return none

/-- The time-block scan of `get_forecast_value` (source lines 117-130):
return the first block whose `[start, end)` window contains the target;
blocks with a falsy start or end string are skipped; an unparsable time
string raises out of the scan (modelled through the oracle `pt`). -/
def scanBlocks (pt : JVal → Option Int) (t : Int) :
    List JVal → Except PyExc (Option JVal)
  | [] => .ok none
  | b :: bs => do
    let st ← get_case_insensitive_key b ["startTime", "StartTime"] .null
    let en ← get_case_insensitive_key b ["endTime", "EndTime"] .null
    if !truthy st || !truthy en then scanBlocks pt t bs
    else
      match pt st with
      | none => .error .valueError
      | some s =>
        match pt en with
        | none => .error .valueError
        | some e =>
          if s ≤ t ∧ t < e then .ok (some b) else scanBlocks pt t bs

/-- The body of `get_forecast_value` (source lines 86-155), i.e. the code
inside the `try`: locate the location entry, the weather element, the
time block containing the target (first-window fallback), and extract its
value.  Exceptions propagate to the caller of this body. -/
def getForecastBody (forecast_json : JVal) (town_name element_name : String)
    (t : Int) (pt : JVal → Option Int) : Except PyExc (Option PyFloat) := do
  let records ← get_case_insensitive_key forecast_json ["records", "Records"] .null
  if !truthy records then return none
  let locations_list ← get_case_insensitive_key records ["locations", "Locations"] .null
  if !truthy locations_list then return none
  let locations_data ← pyIndex0 locations_list
  let location_list0 ← get_case_insensitive_key locations_data ["location", "Location"] .null
  let location_list := if truthy location_list0 then location_list0 else .arr []
  let locs ← pyIter location_list
  let town_data ← pyFindM (fun loc => do
    let ln ← get_case_insensitive_key loc ["locationName", "LocationName"] .null
    pure (jEqStr ln town_name)) locs
  let wel1 ←
    match town_data with
    | some td =>
      if truthy td then
        get_case_insensitive_key td ["weatherElement", "WeatherElement"] .null
      else pure .null
    | none => pure .null
  let weather_element_list ←
    if !truthy wel1 then
      get_case_insensitive_key locations_data ["weatherElement", "WeatherElement"] .null
    else pure wel1
  if !truthy weather_element_list then return none
  let els ← pyIter weather_element_list
  let element_data ← pyFindM (fun el => do
    let en ← get_case_insensitive_key el ["elementName", "ElementName"] .null
    pure (jEqStr en element_name)) els
  match element_data with
  | none => return none
  | some ed =>
    if !truthy ed then return none
    let time_blocks ← get_case_insensitive_key ed ["time", "Time"] (.arr [])
    if !truthy time_blocks then return none
    let blocks ← pyIter time_blocks
    let found ← scanBlocks pt t blocks
    let correct_block ←
      match found with
      | some b =>
        if truthy b then pure (some b)
        else do
          let b0 ← pyIndex0 time_blocks
          pure (some b0)
      | none => do
        let b0 ← pyIndex0 time_blocks
        pure (some b0)
    match correct_block with
    | some cb => if truthy cb then extractBlockValue element_name cb else return none
    | none => return none

/-- The `except (KeyError, IndexError, TypeError, ValueError)` handler of
`get_forecast_value`: those are the only exception classes its body can
raise (`OverflowError` arises only in the weather enricher, outside that
function), so the handler maps every body exception to `None`. -/
def catchToNone (r : Except PyExc (Option PyFloat)) : Option PyFloat :=
  match r with
  | .ok v => v
  | .error _ => none

/-- Source `get_forecast_value`: run the body and map every caught
exception to `None` via `catchToNone`. -/
def get_forecast_value (forecast_json : JVal) (town_name element_name : String)
    (t : Int) (pt : JVal → Option Int) : Option PyFloat :=
  catchToNone (getForecastBody forecast_json town_name element_name t pt)

/-- A canonical forecast document with one county-level entry holding a
single town whose single weather element carries the given time blocks —
the shape produced by the CWA forecast API and consumed by
`get_forecast_value`. -/
def mkForecastDoc (town_name element_name : String) (blocks : List JVal) : JVal :=
  .obj [("records", .obj [("locations", .arr [
    .obj [("location", .arr [
      .obj [("locationName", .str town_name),
            ("weatherElement", .arr [
              .obj [("elementName", .str element_name),
                    ("time", .arr blocks)]])]])]])])]

/-- A well-formed time block: a dict with truthy `startTime`/`endTime`
entries that the time oracle parses. -/
def WFBlock (pt : JVal → Option Int) (b : JVal) : Prop :=
  truthy b = true ∧
  ∃ st en s e,
    get_case_insensitive_key b ["startTime", "StartTime"] .null = .ok st ∧
    get_case_insensitive_key b ["endTime", "EndTime"] .null = .ok en ∧
    truthy st = true ∧ truthy en = true ∧ pt st = some s ∧ pt en = some e

/-- Start instant of a well-formed block under the oracle. -/
def blockStart (pt : JVal → Option Int) (b : JVal) : Option Int :=
  match get_case_insensitive_key b ["startTime", "StartTime"] .null with
  | .ok st => pt st
  | .error _ => none

/-- End instant of a well-formed block under the oracle. -/
def blockEnd (pt : JVal → Option Int) (b : JVal) : Option Int :=
  match get_case_insensitive_key b ["endTime", "EndTime"] .null with
  | .ok en => pt en
  | .error _ => none

/-- Whether the target instant lies in the half-open window of a block. -/
def inWindow (pt : JVal → Option Int) (t : Int) (b : JVal) : Bool :=
  match blockStart pt b, blockEnd pt b with
  | some s, some e => s ≤ t && t < e
  | _, _ => false

/-- The window-selection policy stated by the spec: the first block whose
half-open `[start, end)` window contains the target, else the first block
of the list. -/
def selectBlock (pt : JVal → Option Int) (t : Int) (blocks : List JVal) :
    Option JVal :=
  match blocks.find? (inWindow pt t) with
  | some b => some b
  | none => blocks.head?

/-- Under well-formed blocks the time-block scan of `get_forecast_value`
never raises and returns exactly the first block whose window contains
the target. -/
theorem scanBlocks_wf (pt : JVal → Option Int) (t : Int) (blocks : List JVal)
    (h : ∀ b ∈ blocks, WFBlock pt b) :
    scanBlocks pt t blocks = .ok (blocks.find? (inWindow pt t)) := by
  induction blocks with
  | nil => rfl
  | cons b bs ih =>
    obtain ⟨htr, st, en, s, e, hst, hen, hts, hte, hps, hpe⟩ := h b (by simp)
    have hrest : ∀ x ∈ bs, WFBlock pt x := fun x hx => h x (by simp [hx])
    have hwin : inWindow pt t b = (decide (s ≤ t) && decide (t < e)) := by
      simp [inWindow, blockStart, blockEnd, hst, hen, hps, hpe]
    simp only [scanBlocks, hst, hen, hts, hte, hps, hpe, List.find?_cons, hwin,
      Except.bind, bind, ih hrest]
    by_cases hle : s ≤ t <;> by_cases hlt : t < e <;>
      simp [hle, hlt, ih hrest]

@[simp] theorem truthy_null : truthy .null = false := rfl

@[simp] theorem truthy_str (s : String) : truthy (.str s) = !(s == "") := rfl

@[simp] theorem truthy_arr (xs : List JVal) : truthy (.arr xs) = !xs.isEmpty := rfl

@[simp] theorem truthy_obj (fs : List (String × JVal)) : truthy (.obj fs) = !fs.isEmpty := rfl

/-- Signed decimal integer parse, used only to build concrete time
oracles for witnesses. -/
def strToInt (s : String) : Option Int :=
  match s.data with
  | '-' :: ds =>
    if !ds.isEmpty && ds.all Char.isDigit then some (-(digitsToNat ds : ℤ)) else none
  | ds =>
    if !ds.isEmpty && ds.all Char.isDigit then some ((digitsToNat ds : ℤ)) else none

/-- A concrete time oracle used by the witnesses: time strings are signed
decimal minute counts. -/
def toIntOracle : JVal → Option Int
  | .str s => strToInt s
  | _ => none

/-- C3.  ForecastIndex window selection: for every list of well-formed
time-windows and every target instant, `get_forecast_value` extracts its
result from the first window whose half-open `[start, end)` interval
contains the instant and, when no window contains it (including instants
before the first window's start), from the first window of the list
(`selectBlock`) rather than failing. -/
theorem C3_window_selection (town el : String) (t : Int)
    (pt : JVal → Option Int) (blocks : List JVal)
    (hwf : ∀ b ∈ blocks, WFBlock pt b) (hne : blocks ≠ []) :
    ∃ b, selectBlock pt t blocks = some b ∧
      get_forecast_value (mkForecastDoc town el blocks) town el t pt =
        catchToNone (extractBlockValue el b) := by
  obtain ⟨b0, bs, rfl⟩ := List.exists_cons_of_ne_nil hne
  have h0 : truthy b0 = true := (hwf b0 (by simp)).1
  simp [get_forecast_value, getForecastBody, mkForecastDoc,
    get_case_insensitive_key, keyMem, getItem, pyIndex0, pyIter, pyFindM,
    jEqStr, selectBlock, List.lookup, List.any, bind, Except.bind, pure,
    Except.pure, scanBlocks_wf pt t _ hwf]
  cases hfind : List.find? (inWindow pt t) (b0 :: bs) with
  | some b =>
    have hb : truthy b = true := (hwf b (List.mem_of_find?_eq_some hfind)).1
    exact ⟨b, rfl, by simp [hb]⟩
  | none => exact ⟨b0, rfl, by simp [h0]⟩

/-- A concrete forecast time block: temperature 27.5 over the window
08:00-11:00 (minutes 480-660). -/
def tempBlock : JVal :=
  .obj [("startTime", .str "480"), ("endTime", .str "660"),
        ("elementValue", .arr [.obj [("Temperature", .str "27.5")]])]

/-- Witness for C3 at the spec's scenario: one window [08:00, 11:00) with
temperature 27.5; the in-window instant 09:30 selects it and yields 27.5,
and the out-of-window instant 23:00 falls back to the same first window. -/
theorem C3_window_selection_witness :
    (∃ b, selectBlock toIntOracle 570 [tempBlock] = some b ∧
      get_forecast_value (mkForecastDoc "中正區" "平均溫度" [tempBlock])
          "中正區" "平均溫度" 570 toIntOracle =
        catchToNone (extractBlockValue "平均溫度" b)) ∧
    (∃ b, selectBlock toIntOracle 1380 [tempBlock] = some b ∧
      get_forecast_value (mkForecastDoc "中正區" "平均溫度" [tempBlock])
          "中正區" "平均溫度" 1380 toIntOracle =
        catchToNone (extractBlockValue "平均溫度" b)) ∧
    catchToNone (extractBlockValue "平均溫度" tempBlock) = some (.finite (55/2)) := by
  refine ⟨?_, ?_, ?_⟩
  · exact C3_window_selection "中正區" "平均溫度" 570 toIntOracle [tempBlock]
      (by intro b hb
          simp only [List.mem_singleton] at hb
          subst hb
          exact ⟨rfl, .str "480", .str "660", 480, 660, rfl, rfl, rfl, rfl, rfl, rfl⟩)
      (by simp)
  · exact C3_window_selection "中正區" "平均溫度" 1380 toIntOracle [tempBlock]
      (by intro b hb
          simp only [List.mem_singleton] at hb
          subst hb
          exact ⟨rfl, .str "480", .str "660", 480, 660, rfl, rfl, rfl, rfl, rfl, rfl⟩)
      (by simp)
  · simp [tempBlock, extractBlockValue, catchToNone, get_case_insensitive_key,
      keyMem, getItem, pyIndex0, jEqStr, List.lookup, List.any, bind,
      Except.bind, pure, Except.pure, pyStrGuard, pyFloatOfJVal, pyFloatOfStr,
      stripPyWs, parseDecimalCore, parseExpSuffix, digitsToNat, lowerAscii,
      isPyWs]
    norm_num

/-- A time block whose weather-code value is the string `"inf"`, which
Python's `float` parses to a non-finite value. -/
def infCodeBlock : JVal :=
  .obj [("startTime", .str "0"), ("endTime", .str "100000"),
        ("elementValue", .arr [.obj [("WeatherCode", .str "inf")]])]

/-- Counterexample to C1 as stated: on a document whose selected value
field is the string `"inf"`, `get_forecast_value` returns `float("inf")`,
which is a float but not a finite one — so the lookup is total but does
not always return a *finite* float or `None`. -/
theorem C1_counterexample :
    get_forecast_value (mkForecastDoc "中正區" "天氣現象" [infCodeBlock])
        "中正區" "天氣現象" 10 toIntOracle = some PyFloat.inf ∧
    PyFloat.inf.isFinite = false := by
  constructor
  · simp [get_forecast_value, getForecastBody, mkForecastDoc, infCodeBlock,
      get_case_insensitive_key, keyMem, getItem, pyIndex0, pyIter, pyFindM,
      jEqStr, List.lookup, List.any, bind, Except.bind, pure, Except.pure,
      scanBlocks, toIntOracle, strToInt, extractBlockValue, catchToNone,
      pyStrGuard, pyFloatOfJVal, pyFloatOfStr, stripPyWs, isPyWs,
      digitsToNat, lowerAscii]
  · rfl

/-- C1 (amended).  ForecastIndex lookup is total: for every forecast
document (including malformed ones), location name, element name and
target instant, `get_forecast_value` either returns the value its body
computed or catches the body's exception and returns `None` — it never
raises to the caller; structural absence (no `records` key, a `null`
document, a missing location with no county-level elements, a missing
element, or an empty time-window list) yields `None`.  (The returned
float need not be finite: a value field textually encoding an infinity
yields `float("inf")`, see the counterexample.) -/
theorem C1_total_lookup :
    (∀ (doc : JVal) (town el : String) (t : Int) (pt : JVal → Option Int),
      (∃ v, getForecastBody doc town el t pt = .ok v ∧
            get_forecast_value doc town el t pt = v) ∨
      (∃ e, getForecastBody doc town el t pt = .error e ∧
            get_forecast_value doc town el t pt = none)) ∧
    (∀ (town el : String) (t : Int) (pt : JVal → Option Int),
      get_forecast_value (.obj []) town el t pt = none) ∧
    (∀ (town el : String) (t : Int) (pt : JVal → Option Int),
      get_forecast_value .null town el t pt = none) ∧
    (∀ (town town' el : String) (t : Int) (pt : JVal → Option Int)
        (blocks : List JVal), town ≠ town' →
      get_forecast_value (mkForecastDoc town el blocks) town' el t pt = none) ∧
    (∀ (town el el' : String) (t : Int) (pt : JVal → Option Int)
        (blocks : List JVal), el ≠ el' →
      get_forecast_value (mkForecastDoc town el blocks) town el' t pt = none) ∧
    (∀ (town el : String) (t : Int) (pt : JVal → Option Int),
      get_forecast_value (mkForecastDoc town el []) town el t pt = none) := by
  refine ⟨?_, ?_, ?_, ?_, ?_, ?_⟩
  · intro doc town el t pt
    cases h : getForecastBody doc town el t pt with
    | ok v => exact .inl ⟨v, rfl, by simp [get_forecast_value, catchToNone, h]⟩
    | error e => exact .inr ⟨e, rfl, by simp [get_forecast_value, catchToNone, h]⟩
  · intro town el t pt
    simp [get_forecast_value, getForecastBody, get_case_insensitive_key,
      keyMem, getItem, List.lookup, List.any, bind, Except.bind, pure,
      Except.pure, catchToNone]
  · intro town el t pt
    simp [get_forecast_value, getForecastBody, get_case_insensitive_key,
      keyMem, bind, Except.bind, catchToNone]
  · intro town town' el t pt blocks h
    simp [get_forecast_value, getForecastBody, mkForecastDoc,
      get_case_insensitive_key, keyMem, getItem, pyIndex0, pyIter, pyFindM,
      jEqStr, List.lookup, List.any, bind, Except.bind, pure, Except.pure,
      catchToNone, h, Ne.symm h]
  · intro town el el' t pt blocks h
    simp [get_forecast_value, getForecastBody, mkForecastDoc,
      get_case_insensitive_key, keyMem, getItem, pyIndex0, pyIter, pyFindM,
      jEqStr, List.lookup, List.any, bind, Except.bind, pure, Except.pure,
      catchToNone, h, Ne.symm h]
  · intro town el t pt
    simp [get_forecast_value, getForecastBody, mkForecastDoc,
      get_case_insensitive_key, keyMem, getItem, pyIndex0, pyIter, pyFindM,
      jEqStr, List.lookup, List.any, bind, Except.bind, pure, Except.pure,
      catchToNone]

/-- Witness for C1: the amended theorem applied at concrete inputs, each
hypothesis discharged at distinct literal names. -/
theorem C1_total_lookup_witness :
    get_forecast_value (mkForecastDoc "中正區" "平均溫度" [tempBlock])
        "信義區" "平均溫度" 570 toIntOracle = none ∧
    get_forecast_value (mkForecastDoc "中正區" "平均溫度" [tempBlock])
        "中正區" "風速" 570 toIntOracle = none := by
  constructor
  · exact C1_total_lookup.2.2.2.1 "中正區" "信義區" "平均溫度" 570 toIntOracle
      [tempBlock] (by decide)
  · exact C1_total_lookup.2.2.2.2.1 "中正區" "平均溫度" "風速" 570 toIntOracle
      [tempBlock] (by decide)

/-- Model of pandas `.str.strip()` (and Python `str.strip()`), over the
same ASCII whitespace as `stripPyWs`. -/
def pyStripStr (s : String) : String :=
  String.mk (stripPyWs s.data)

/-- The ordered keyword table of `infer_region_from_name` (source lines
66-73); Python dicts iterate in insertion order. -/
def region_keywords : List (String × List String) :=
  [("North", ["林口", "大潭", "新桃", "通霄", "協和", "石門", "翡翠", "桂山", "觀音", "龍潭", "北部"]),
   ("Central", ["台中", "大甲溪", "明潭", "彰工", "中港", "竹南", "苗栗", "雲林", "麥寮", "中部", "彰"]),
   ("South", ["興達", "大林", "南部", "核三", "曾文", "嘉義", "台南", "高雄", "永安", "屏東"]),
   ("East", ["和平", "花蓮", "蘭陽", "卑南", "立霧", "東部"]),
   ("Islands", ["澎湖", "金門", "馬祖", "塔山", "離島"]),
   ("Other", ["汽電共生", "其他台電自有", "其他購電太陽能", "其他購電風力", "購買地熱", "台電自有地熱", "生質能"])]

/-- The scan of `infer_region_from_name`: first table row with a keyword
occurring as a substring of the unit name. -/
def inferAux (name : String) : List (String × List String) → Option String
  | [] => none
  | (rg, kws) :: rest =>
    if kws.any (fun kw => strContains name kw) then some rg
    else inferAux name rest

/-- Source `infer_region_from_name`. -/
def infer_region_from_name (unit_name : String) : Option String :=
  inferAux unit_name region_keywords

/-- The fixed region vocabulary of the pipeline. -/
def REGIONS : List String :=
  ["North", "Central", "South", "East", "Islands", "Other", "Unknown"]

/-- The region-assignment step of `run_pipeline` (source lines 326-336)
for one unit: a static-map hit (merge on `UNIT_NAME`) wins; unmapped
units (absent from the map, or mapped to a missing `REGION` cell) fall
back to keyword inference, then to `"Unknown"` (`fillna`); finally the
region string is stripped (`.str.strip()`). -/
def resolveRegion (plant_map : List (String × Option String)) (unit_name : String) :
    String :=
  pyStripStr
    (match plant_map.lookup unit_name with
     | some (some r) => r
     | _ => (infer_region_from_name unit_name).getD "Unknown")

theorem lookup_mem {α β : Type} [BEq α] [LawfulBEq α] {l : List (α × β)} {k : α}
    {v : β} (h : l.lookup k = some v) : (k, v) ∈ l := by
  induction l with
  | nil => simp [List.lookup] at h
  | cons p rest ih =>
    rw [List.lookup] at h
    by_cases hk : k == p.1
    · simp [hk] at h
      have hk1 : k = p.1 := eq_of_beq hk
      have : (k, v) = p := by
        rw [Prod.ext_iff]
        exact ⟨hk1, h.symm⟩
      rw [this]
      exact .head _
    · simp [hk] at h
      exact .tail _ (ih h)

theorem inferAux_eq_find (name : String) (tbl : List (String × List String)) :
    inferAux name tbl =
      (tbl.find? (fun p => p.2.any (fun kw => strContains name kw))).map Prod.fst := by
  induction tbl with
  | nil => rfl
  | cons p rest ih =>
    obtain ⟨rg, kws⟩ := p
    by_cases h : kws.any (fun kw => strContains name kw)
    · simp [inferAux, List.find?, h]
    · simp only [Bool.not_eq_true] at h
      simp [inferAux, List.find?, h, ih]

theorem infer_mem_regions (name rg : String)
    (h : infer_region_from_name name = some rg) : rg ∈ REGIONS := by
  rw [infer_region_from_name, inferAux_eq_find] at h
  rw [Option.map_eq_some'] at h
  obtain ⟨p, hp, rfl⟩ := h
  have := List.mem_of_find?_eq_some hp
  fin_cases this <;> simp [REGIONS]

theorem pyStripStr_regions : ∀ r ∈ REGIONS, pyStripStr r = r := by decide

/-- C5.  Region resolution: every unit name receives exactly one region,
and it lies in {North, Central, South, East, Islands, Other, Unknown}
whenever the static map's regions do; a static-map entry always takes
precedence over keyword inference; unmapped names fall back to the
keyword scan, whose result is the first table row (in table order) with a
keyword occurring as a substring of the name; names matching neither map
nor keywords resolve to "Unknown".  Resolution is a total function, so it
never raises. -/
theorem C5_region_resolution :
    (∀ (pm : List (String × Option String)) (name : String),
      (∀ p ∈ pm, p.2.getD "Unknown" ∈ REGIONS) →
      resolveRegion pm name ∈ REGIONS) ∧
    (∀ (pm : List (String × Option String)) (name r : String),
      pm.lookup name = some (some r) → resolveRegion pm name = pyStripStr r) ∧
    (∀ (pm : List (String × Option String)) (name : String),
      pm.lookup name = none ∨ pm.lookup name = some none →
      resolveRegion pm name =
        pyStripStr ((infer_region_from_name name).getD "Unknown")) ∧
    (∀ name : String,
      infer_region_from_name name =
        (region_keywords.find? (fun p => p.2.any (fun kw => strContains name kw))).map
          Prod.fst) := by
  refine ⟨?_, ?_, ?_, ?_⟩
  · intro pm name h
    rw [resolveRegion]
    cases hlk : pm.lookup name with
    | some v =>
      cases v with
      | some r =>
        have hr : r ∈ REGIONS := by
          have := h _ (lookup_mem hlk)
          simpa using this
        rw [pyStripStr_regions r hr]
        exact hr
      | none =>
        cases hinf : infer_region_from_name name with
        | some rg =>
          have hrg := infer_mem_regions name rg hinf
          simp only [Option.getD_some]
          rw [pyStripStr_regions rg hrg]
          exact hrg
        | none => simp [REGIONS, pyStripStr, stripPyWs, isPyWs]
    | none =>
      cases hinf : infer_region_from_name name with
      | some rg =>
        have hrg := infer_mem_regions name rg hinf
        simp only [Option.getD_some]
        rw [pyStripStr_regions rg hrg]
        exact hrg
      | none => simp [REGIONS, pyStripStr, stripPyWs, isPyWs]
  · intro pm name r h
    rw [resolveRegion, h]
  · intro pm name h
    rcases h with h | h <;> rw [resolveRegion, h]
  · intro name
    exact inferAux_eq_find name region_keywords

/-- Witness for C5: a static-map entry mapping 林口#1 to South overrides
the keyword inference that would say North; without a map entry the
keyword 林口 wins in table order; a name matching nothing resolves to
Unknown; every result lies in the region vocabulary. -/
theorem C5_region_resolution_witness :
    resolveRegion [("林口#1", some "South")] "林口#1" = "South" ∧
    resolveRegion [] "林口#1" = "North" ∧
    resolveRegion [] "神祕電廠" = "Unknown" ∧
    resolveRegion [("林口#1", some "South")] "林口#1" ∈ REGIONS := by
  refine ⟨?_, ?_, ?_, ?_⟩
  · rw [C5_region_resolution.2.1 [("林口#1", some "South")] "林口#1" "South" (by decide)]
    decide
  · rw [C5_region_resolution.2.2.1 [] "林口#1" (.inl (by decide))]
    decide
  · rw [C5_region_resolution.2.2.1 [] "神祕電廠" (.inl (by decide))]
    decide
  · exact C5_region_resolution.1 [("林口#1", some "South")] "林口#1" (by decide)

/-- The unit-set diff of `run_pipeline` (source line 312):
`newly_added, missing = current_units - previous_units,
previous_units - current_units` on Python sets. -/
def unitDiff (current_units previous_units : Finset String) :
    Finset String × Finset String :=
  (current_units \ previous_units, previous_units \ current_units)

/-- C8.  The unit-set diff is exact set difference: `added` is
`current \ previous` and `missing` is `previous \ current`; membership is
characterised pointwise, `diff(U, U) = (∅, ∅)` for every `U`, and the
spec's scenario `diff({B, C}, {A, B}) = ({C}, {A})` holds. -/
theorem C8_unit_diff :
    (∀ U : Finset String, unitDiff U U = (∅, ∅)) ∧
    (∀ (cur prev : Finset String) (x : String),
      (x ∈ (unitDiff cur prev).1 ↔ x ∈ cur ∧ x ∉ prev) ∧
      (x ∈ (unitDiff cur prev).2 ↔ x ∈ prev ∧ x ∉ cur)) ∧
    unitDiff {"B", "C"} {"A", "B"} = ({"C"}, {"A"}) := by
  refine ⟨?_, ?_, by decide⟩
  · intro U
    simp [unitDiff]
  · intro cur prev x
    constructor <;> simp [unitDiff]

/-- Reading the persisted run state (source lines 301-305): the state
file holds a JSON array of unit names, read back into a Python set; a
`FileNotFoundError` or `JSONDecodeError` (modelled as `none`) is
recovered by treating the previous unit set as empty.  (The set forgets
the array's order, which Python's `set` iteration leaves unspecified
anyway.) -/
def read_previous_units (state_file : Option (Finset String)) : Finset String :=
  state_file.getD ∅

/-- C9.  State-file recovery: when the persisted state file is absent or
corrupt the pipeline treats the previous unit set as empty instead of
failing, so on a first-ever run the diff classifies every current unit as
added (and nothing as missing). -/
theorem C9_state_recovery :
    read_previous_units none = ∅ ∧
    (∀ cur : Finset String, unitDiff cur (read_previous_units none) = (cur, ∅)) := by
  refine ⟨rfl, ?_⟩
  intro cur
  simp [read_previous_units, unitDiff]

/-- A per-unit generation record built from one feed row (source line
292). -/
structure GenerationRecord where
  dt : String
  fuel_type : String
  unit_name : String
  net_p : ℚ
deriving DecidableEq

/-- The fuel-label map of `run_pipeline` (source lines 269-283). -/
def fuel_map : List (String × String) :=
  [("太陽能", "太陽能(Solar)"),
   ("風力", "風力(Wind)"),
   ("燃煤", "燃煤(Coal)"),
   ("燃氣", "燃氣(LNG)"),
   ("水力", "水力(Hydro)"),
   ("核能", "核能(Nuclear)"),
   ("汽電共生", "汽電共生(Co-Gen)"),
   ("民營電廠-燃煤", "民營電廠-燃煤(IPP-Coal)"),
   ("民營電廠-燃氣", "民營電廠-燃氣(IPP-LNG)"),
   ("燃油", "燃油(Oil)"),
   ("輕油", "輕油(Diesel)"),
   ("其它再生能源", "其它再生能源(Other Renewable Energy)"),
   ("儲能", "儲能(Energy Storage System)")]

/-- The characters strictly between a matched `<b>` opening and the first
following `</b>`; `none` when no closer follows. -/
def captureTillCloser : List Char → Option (List Char)
  | [] => none
  | c :: rest =>
    if ['<', '/', 'b', '>'].isPrefixOf (c :: rest) then some []
    else (captureTillCloser rest).map (c :: ·)

/-- The group of `re.search(r'<b>(.*?)</b>', s)`: the text between the
leftmost `<b>` and the earliest `</b>` after it; `none` when the pattern
does not match.  (If the first `<b>` has no `</b>` after it, no later one
does either, so the scan from the first `<b>` is the leftmost match.) -/
def findBoldGroup : List Char → Option (List Char)
  | [] => none
  | c :: rest =>
    if ['<', 'b', '>'].isPrefixOf (c :: rest) then captureTillCloser (rest.drop 2)
    else findBoldGroup rest

/-- The unsigned part `\d+(\.\d+)?` of the power regex, anchored on the
whole input, with the rational value `float` would compute for a
match. -/
def netpUnsigned (cs : List Char) : Option ℚ :=
  let (d1, r1) := cs.span Char.isDigit
  if d1.isEmpty then none
  else
    match r1 with
    | [] => some ((digitsToNat d1 : ℚ))
    | '.' :: rest =>
      let (d2, r2) := rest.span Char.isDigit
      if d2.isEmpty || !r2.isEmpty then none
      else some ((digitsToNat d1 : ℚ) + (digitsToNat d2 : ℚ) / (10 : ℚ) ^ d2.length)
    | _ => none

/-- The core of the power regex `-?\d+(\.\d+)?` anchored on the whole
input: an optional leading minus, then the unsigned part. -/
def netpCore : List Char → Option ℚ
  | '-' :: r => (netpUnsigned r).map (fun q => -q)
  | r => netpUnsigned r

/-- `re.match(r'^-?\d+(\.\d+)?$', s)` plus `float(s)` on success: in
Python regexes `$` also matches just before one final newline, so a
single trailing newline is tolerated (and `float` then strips it). -/
def parseNetP (s : String) : Option ℚ :=
  match netpCore s.data with
  | some q => some q
  | none =>
    match s.data.getLast? with
    | some c => if c = '\n' then netpCore s.data.dropLast else none
    | none => none

/-- Python `s.replace(',', '')`. -/
def removeCommas (s : String) : String :=
  String.mk (s.data.filter (fun c => c ≠ ','))

/-- The per-row filter and record constructor of `run_pipeline` (source
lines 284-292): skip short rows and subtotal rows, strip the unit name,
de-comma the position-4 power string, extract the bolded fuel label from
position 0, skip load labels and empty names, map the fuel label, and
keep the row only when the power string matches the anchored decimal
regex. -/
def parseRow (formatted_datetime : String) (row : List String) :
    Option GenerationRecord :=
  if row.length < 5 || strContains (row.getD 2 "") "小計" then none
  else
    let unit_name := pyStripStr (row.getD 2 "")
    let net_p_str := removeCommas (row.getD 4 "")
    match findBoldGroup (row.getD 0 "").data with
    | none => none
    | some g =>
      if unit_name == "" || strContains (String.mk g) "Load" then none
      else
        match parseNetP net_p_str with
        | some q =>
          some ⟨formatted_datetime, (fuel_map.lookup (String.mk g)).getD (String.mk g),
                unit_name, q⟩
        | none => none

/-- The records of one run (source lines 284-292) and its current unit
set (source line 307). -/
def parseRecords (formatted_datetime : String) (live_data : List (List String)) :
    List GenerationRecord :=
  live_data.filterMap (parseRow formatted_datetime)

theorem head_dropWhile_false {α : Type} {p : α → Bool} :
    ∀ {l : List α} {c : α} {r : List α}, l.dropWhile p = c :: r → p c = false := by
  intro l
  induction l with
  | nil => intro c r h; simp at h
  | cons a as ih =>
    intro c r h
    rw [List.dropWhile_cons] at h
    by_cases ha : p a = true
    · simp [ha] at h
      exact ih h
    · simp [ha] at h
      simp [h.1 ▸ (Bool.not_eq_true _).mp ha]

/-- An enriched per-unit record: a `GenerationRecord` joined with its
region and the region's weather feature columns (source line 367;
`UNIT_NAME` has been dropped). -/
structure EnrichedRecord where
  dt : String
  region : String
  fuel_type : String
  net_p : ℚ
  feats : List (String × Option PyFloat)
deriving DecidableEq

/-- One aggregated output row (source line 374): one row per
`(DATETIME, REGION, FUEL_TYPE)` group, with `NET_P` summed and the
weather columns carried from the group's first row. -/
structure AggRow where
  dt : String
  region : String
  fuel_type : String
  net_p_sum : ℚ
  feats : List (String × Option PyFloat)
deriving DecidableEq

/-- The grouping key of the aggregation. -/
def aggKey (r : EnrichedRecord) : String × String × String :=
  (r.dt, r.region, r.fuel_type)

/-- First-occurrence deduplication (the distinct group keys; pandas
sorts group keys, but key order is immaterial to every property proved
here). -/
def pyUniqueAux {α : Type} [DecidableEq α] (acc : List α) : List α → List α
  | [] => acc
  | a :: l => if a ∈ acc then pyUniqueAux acc l else pyUniqueAux (acc ++ [a]) l

/-- First-occurrence deduplication of a list. -/
def pyUnique {α : Type} [DecidableEq α] (l : List α) : List α :=
  pyUniqueAux [] l

theorem mem_pyUniqueAux {α : Type} [DecidableEq α] (l : List α) :
    ∀ (acc : List α) (x : α), x ∈ pyUniqueAux acc l ↔ x ∈ acc ∨ x ∈ l := by
  induction l with
  | nil => intro acc x; simp [pyUniqueAux]
  | cons a l ih =>
    intro acc x
    rw [pyUniqueAux]
    by_cases ha : a ∈ acc
    · rw [if_pos ha, ih]
      constructor
      · rintro (h | h)
        · exact .inl h
        · exact .inr (by simp [h])
      · rintro (h | h)
        · exact .inl h
        · rcases List.mem_cons.mp h with rfl | h2
          · exact .inl ha
          · exact .inr h2
    · rw [if_neg ha, ih]
      constructor
      · rintro (h | h)
        · rcases List.mem_append.mp h with h2 | h2
          · exact .inl h2
          · obtain rfl := List.mem_singleton.mp h2
            exact .inr (by simp)
        · exact .inr (by simp [h])
      · rintro (h | h)
        · exact .inl (by simp [h])
        · rcases List.mem_cons.mp h with rfl | h2
          · exact .inl (by simp)
          · exact .inr h2

theorem nodup_pyUniqueAux {α : Type} [DecidableEq α] (l : List α) :
    ∀ acc : List α, acc.Nodup → (pyUniqueAux acc l).Nodup := by
  induction l with
  | nil => intro acc h; simpa [pyUniqueAux] using h
  | cons a l ih =>
    intro acc hacc
    rw [pyUniqueAux]
    by_cases ha : a ∈ acc
    · rw [if_pos ha]
      exact ih acc hacc
    · rw [if_neg ha]
      exact ih (acc ++ [a]) (by simp [List.nodup_append, hacc, ha])

theorem mem_pyUnique {α : Type} [DecidableEq α] (l : List α) (x : α) :
    x ∈ pyUnique l ↔ x ∈ l := by
  rw [pyUnique, mem_pyUniqueAux]
  simp

theorem nodup_pyUnique {α : Type} [DecidableEq α] (l : List α) :
    (pyUnique l).Nodup :=
  nodup_pyUniqueAux l [] List.nodup_nil

/-- The aggregated row of one `(DATETIME, REGION, FUEL_TYPE)` group:
`NET_P` summed over the group, the weather feature columns taken from
the group's first row (all group rows share them, since features are a
function of the region). -/
def mkAggRow (rs : List EnrichedRecord) (k : String × String × String) : AggRow :=
  { dt := k.1, region := k.2.1, fuel_type := k.2.2,
    net_p_sum := ((rs.filter (fun r => aggKey r = k)).map (fun r => r.net_p)).sum,
    feats := (((rs.filter (fun r => aggKey r = k)).head?).map
      (fun r => r.feats)).getD [] }

/-- The group-by aggregation of `run_pipeline` (source lines 369-374):
one row per distinct `(DATETIME, REGION, FUEL_TYPE)` key. -/
def aggregate (rs : List EnrichedRecord) : List AggRow :=
  (pyUnique (rs.map aggKey)).map (mkAggRow rs)

theorem sum_map_filter_split {α : Type} (p : α → Bool) (f : α → ℚ) (l : List α) :
    ((l.filter p).map f).sum + ((l.filter (fun a => !p a)).map f).sum
      = (l.map f).sum := by
  induction l with
  | nil => simp
  | cons a l ih =>
    by_cases ha : p a
    · simp only [List.filter_cons, ha, if_pos, List.map_cons, List.sum_cons]
      simp only [ha, Bool.not_true, Bool.false_eq_true, if_false]
      rw [← ih]
      ring
    · have ha' : p a = false := Bool.not_eq_true _ |>.mp ha
      simp only [List.filter_cons, ha', Bool.false_eq_true, if_false,
        Bool.not_false, if_pos, List.map_cons, List.sum_cons]
      rw [← ih]
      ring

theorem sum_over_groups {α K : Type} [DecidableEq K] (key : α → K) (f : α → ℚ)
    (ks : List K) (hnd : ks.Nodup) (l : List α)
    (hcov : ∀ a ∈ l, key a ∈ ks) :
    (ks.map (fun k => ((l.filter (fun a => key a = k)).map f).sum)).sum
      = (l.map f).sum := by
  induction ks generalizing l with
  | nil =>
    have : l = [] := List.eq_nil_iff_forall_not_mem.mpr (fun a ha => by simpa using hcov a ha)
    subst this
    simp
  | cons k ks ih =>
    have hk : k ∉ ks := (List.nodup_cons.mp hnd).1
    have hnd' : ks.Nodup := (List.nodup_cons.mp hnd).2
    rw [List.map_cons, List.sum_cons]
    have hsplit := sum_map_filter_split (fun a => key a = k) f l
    have hcov2 : ∀ a ∈ l.filter (fun a => !(key a = k : Bool)), key a ∈ ks := by
      intro a ha
      rw [List.mem_filter] at ha
      have h1 := hcov a ha.1
      have h2 : ¬ key a = k := by simpa using ha.2
      rcases List.mem_cons.mp h1 with h | h
      · exact absurd h h2
      · exact h
    have hfix : ∀ k' ∈ ks,
        (l.filter (fun a => !(key a = k : Bool))).filter (fun a => key a = k')
          = l.filter (fun a => key a = k') := by
      intro k' hk'
      rw [List.filter_filter]
      apply List.filter_congr
      intro a _
      have hk'k : ¬ k' = k := fun hx => hk (hx ▸ hk')
      by_cases h : key a = k'
      · have hak : ¬ key a = k := fun hx => hk'k (h.symm.trans hx)
        simp [h, hak, hk'k]
      · simp [h]
    calc ((l.filter (fun a => key a = k)).map f).sum +
          (ks.map (fun k' => ((l.filter (fun a => key a = k')).map f).sum)).sum
        = ((l.filter (fun a => key a = k)).map f).sum +
          (ks.map (fun k' =>
            (((l.filter (fun a => !(key a = k : Bool))).filter
              (fun a => key a = k')).map f).sum)).sum := by
          congr 1
          apply congrArg
          apply List.map_congr_left
          intro k' hk'
          rw [hfix k' hk']
      _ = ((l.filter (fun a => key a = k)).map f).sum +
          ((l.filter (fun a => !(key a = k : Bool))).map f).sum := by
          rw [ih hnd' _ hcov2]
      _ = (l.map f).sum := hsplit

/-- C4.  Conservation of total power: for every list of enriched records
and every timestamp, the sum of `net_p_sum` over the aggregated rows
carrying that timestamp equals the sum of `net_p` over all enriched
records with that timestamp — grouping by `(timestamp, region,
fuel_type)` and summing `NET_P` neither loses nor adds power. -/
theorem C4_conservation (rs : List EnrichedRecord) (t : String) :
    (((aggregate rs).filter (fun a => a.dt = t)).map (fun a => a.net_p_sum)).sum
      = ((rs.filter (fun r => r.dt = t)).map (fun r => r.net_p)).sum := by
  rw [aggregate, List.filter_map, List.map_map]
  have hcomp1 : ((fun a : AggRow => (decide (a.dt = t))) ∘ mkAggRow rs)
      = (fun k : String × String × String => (decide (k.1 = t))) := rfl
  have hcomp2 : ((fun a : AggRow => a.net_p_sum) ∘ mkAggRow rs)
      = (fun k => ((rs.filter (fun r => aggKey r = k)).map (fun r => r.net_p)).sum) :=
    rfl
  rw [hcomp1, hcomp2]
  have hfix : ∀ k ∈ (pyUnique (rs.map aggKey)).filter
      (fun k : String × String × String => (decide (k.1 = t))),
      ((rs.filter (fun r => aggKey r = k)).map (fun r => r.net_p)).sum
        = (((rs.filter (fun r => r.dt = t)).filter
            (fun r => aggKey r = k)).map (fun r => r.net_p)).sum := by
    intro k hkmem
    have hkt : k.1 = t := by
      have := (List.mem_filter.mp hkmem).2
      simpa using this
    congr 1
    apply congrArg
    rw [List.filter_filter]
    apply List.filter_congr
    intro r _
    by_cases h : aggKey r = k
    · have hdt : r.dt = t := by
        rw [show r.dt = (aggKey r).1 from rfl, h, hkt]
      simp [h, hdt]
    · simp [h]
  rw [List.map_congr_left hfix]
  apply sum_over_groups aggKey (fun r => r.net_p)
  · exact (nodup_pyUnique _).filter _
  · intro a ha
    rw [List.mem_filter] at ha ⊢
    refine ⟨(mem_pyUnique _ _).mpr (List.mem_map_of_mem aggKey ha.1), ?_⟩
    have : a.dt = t := by simpa using ha.2
    simpa [aggKey] using this

/-- The per-table persistence step of `run_pipeline` (source lines
392-402): read the existing table (an absent file behaves like an empty
table), drop every persisted row whose timestamp equals the incoming
one, append the new group's rows, and write the whole table back.  (All
timestamps are produced by the same `strftime` format, so the
`pd.to_datetime` comparison of the source coincides with string
equality.) -/
def upsertTable (table : List AggRow) (ts : String) (group : List AggRow) :
    List AggRow :=
  table.filter (fun r => r.dt ≠ ts) ++ group

/-- Number of rows of a table carrying a given timestamp. -/
def countTs (table : List AggRow) (ts : String) : ℕ :=
  (table.filter (fun r => r.dt = ts)).length

/-- C2.  Persistence is idempotent per timestamp: replaying the same
group for the same timestamp leaves the table unchanged; after an upsert
of the run's single aggregated row the table holds exactly one row with
the run's timestamp; and rows with other timestamps are untouched — so
running the pipeline twice with identical upstream data and the same
effective timestamp leaves exactly one row per timestamp in each
per-(region, fuel_type) table. -/
theorem C2_idempotent_persistence :
    (∀ (table : List AggRow) (ts : String) (g : List AggRow),
      (∀ r ∈ g, r.dt = ts) →
      upsertTable (upsertTable table ts g) ts g = upsertTable table ts g) ∧
    (∀ (table : List AggRow) (ts : String) (r0 : AggRow),
      r0.dt = ts → countTs (upsertTable table ts [r0]) ts = 1) ∧
    (∀ (table : List AggRow) (ts ts' : String) (g : List AggRow),
      (∀ r ∈ g, r.dt = ts) → ts' ≠ ts →
      countTs (upsertTable table ts g) ts' = countTs table ts') := by
  refine ⟨?_, ?_, ?_⟩
  · intro table ts g hg
    simp only [upsertTable, List.filter_append, List.filter_filter]
    have h1 : (table.filter (fun r => (r.dt ≠ ts : Bool) && (r.dt ≠ ts : Bool)))
        = table.filter (fun r => (r.dt ≠ ts : Bool)) := by
      apply List.filter_congr
      intro r _
      by_cases h : r.dt = ts <;> simp [h]
    have h2 : g.filter (fun r => (r.dt ≠ ts : Bool)) = [] := by
      rw [List.filter_eq_nil_iff]
      intro r hr
      simp [hg r hr]
    rw [h1, h2, List.append_nil]
  · intro table ts r0 h0
    simp only [upsertTable, countTs, List.filter_append, List.filter_filter]
    have h1 : (table.filter (fun r => (r.dt = ts : Bool) && (r.dt ≠ ts : Bool)))
        = [] := by
      rw [List.filter_eq_nil_iff]
      intro r hr
      by_cases h : r.dt = ts <;> simp [h]
    rw [h1]
    simp [h0]
  · intro table ts ts' g hg hne
    simp only [upsertTable, countTs, List.filter_append, List.filter_filter]
    have h1 : (table.filter (fun r => (r.dt = ts' : Bool) && (r.dt ≠ ts : Bool)))
        = table.filter (fun r => (r.dt = ts' : Bool)) := by
      apply List.filter_congr
      intro r _
      by_cases h : r.dt = ts'
      · have hrt : r.dt ≠ ts := fun hx => hne (h ▸ hx ▸ rfl)
        simp [h, hrt, hne]
      · simp [h]
    have h2 : g.filter (fun r => (r.dt = ts' : Bool)) = [] := by
      rw [List.filter_eq_nil_iff]
      intro r hr
      simp [hg r hr, Ne.symm hne]
    rw [h1, h2, List.append_nil]

/-- A concrete persisted row at timestamp t0. -/
def rowT0 : AggRow :=
  { dt := "2025-01-01 00:00:00", region := "North", fuel_type := "燃煤(Coal)",
    net_p_sum := 7, feats := [] }

/-- A concrete incoming aggregated row at timestamp t1. -/
def rowT1 : AggRow :=
  { dt := "2025-01-01 00:10:00", region := "North", fuel_type := "燃煤(Coal)",
    net_p_sum := 9, feats := [] }

/-- Witness for C2: upserting the t1 row twice equals upserting it once;
the run's timestamp then has exactly one row; the t0 row's timestamp
count is unchanged. -/
theorem C2_idempotent_persistence_witness :
    upsertTable (upsertTable [rowT0] "2025-01-01 00:10:00" [rowT1])
        "2025-01-01 00:10:00" [rowT1]
      = upsertTable [rowT0] "2025-01-01 00:10:00" [rowT1] ∧
    countTs (upsertTable [rowT0] "2025-01-01 00:10:00" [rowT1])
        "2025-01-01 00:10:00" = 1 ∧
    countTs (upsertTable [rowT0] "2025-01-01 00:10:00" [rowT1])
        "2025-01-01 00:00:00" = countTs [rowT0] "2025-01-01 00:00:00" := by
  refine ⟨?_, ?_, ?_⟩
  · exact C2_idempotent_persistence.1 [rowT0] "2025-01-01 00:10:00" [rowT1]
      (by intro r hr; obtain rfl := List.mem_singleton.mp hr; rfl)
  · exact C2_idempotent_persistence.2.1 [rowT0] "2025-01-01 00:10:00" rowT1 rfl
  · exact C2_idempotent_persistence.2.2 [rowT0] "2025-01-01 00:10:00"
      "2025-01-01 00:00:00" [rowT1]
      (by intro r hr; obtain rfl := List.mem_singleton.mp hr; rfl)
      (by decide)

/-- One region's weather configuration (source lines 30-56). -/
structure WeatherCfg where
  avg_towns : List (String × String)
  code_town : String × String
  forecast_files : List String
deriving DecidableEq

/-- Source `WEATHER_CONFIG`. -/
def WEATHER_CONFIG : List (String × WeatherCfg) :=
  [("North",
    { avg_towns := [("新北市", "林口區"), ("桃園市", "觀音區"),
                    ("苗栗縣", "通霄鎮"), ("臺北市", "中正區")],
      code_town := ("臺北市", "中正區"),
      forecast_files := ["新北市_forecast.json", "桃園市_forecast.json",
                         "苗栗縣_forecast.json", "臺北市_forecast.json"] }),
   ("Central",
    { avg_towns := [("臺中市", "龍井區"), ("臺中市", "西屯區"), ("彰化縣", "彰化市")],
      code_town := ("臺中市", "西屯區"),
      forecast_files := ["臺中市_forecast.json", "彰化縣_forecast.json"] }),
   ("South",
    { avg_towns := [("高雄市", "永安區"), ("高雄市", "小港區"),
                    ("臺南市", "安南區"), ("屏東縣", "恆春鎮")],
      code_town := ("高雄市", "苓雅區"),
      forecast_files := ["高雄市_forecast.json", "臺南市_forecast.json",
                         "屏東縣_forecast.json"] }),
   ("East",
    { avg_towns := [("花蓮縣", "花蓮市")],
      code_town := ("花蓮縣", "花蓮市"),
      forecast_files := ["花蓮縣_forecast.json"] }),
   ("Islands",
    { avg_towns := [("澎湖縣", "湖西鄉")],
      code_town := ("澎湖縣", "湖西鄉"),
      forecast_files := ["澎湖縣_forecast.json"] })]

/-- Bounded-fuel replace-all over character lists (the bound is the input
length, which suffices because the pattern is nonempty). -/
def replaceAllBounded (pat rep : List Char) : Nat → List Char → List Char
  | 0, cs => cs
  | _ + 1, [] => []
  | n + 1, c :: cs =>
    if pat.isPrefixOf (c :: cs) then
      rep ++ replaceAllBounded pat rep n (cs.drop (pat.length - 1))
    else c :: replaceAllBounded pat rep n cs

/-- Python `s.replace(pat, rep)` for a nonempty pattern. -/
def pyReplace (s pat rep : String) : String :=
  String.mk (replaceAllBounded pat.data rep.data s.data.length s.data)

/-- County name of a cached forecast file:
`f_name.replace('_forecast.json', '')` (source line 173). -/
def countyOfFile (f_name : String) : String :=
  pyReplace f_name "_forecast.json" ""

/-- IEEE-style addition on `PyFloat` (finite arithmetic idealised as
exact rationals). -/
def pyAdd : PyFloat → PyFloat → PyFloat
  | .finite a, .finite b => .finite (a + b)
  | .nan, _ => .nan
  | _, .nan => .nan
  | .inf, .ninf => .nan
  | .ninf, .inf => .nan
  | .inf, _ => .inf
  | _, .inf => .inf
  | .ninf, _ => .ninf
  | _, .ninf => .ninf

/-- Sum of a list of Python floats. -/
def pySum (l : List PyFloat) : PyFloat :=
  l.foldl pyAdd (.finite 0)

/-- Division of a Python float by a positive machine integer. -/
def pyDivNat (x : PyFloat) (n : Nat) : PyFloat :=
  match x with
  | .finite q => .finite (q / n)
  | x => x

/-- `numpy` rounding of a rational to an integer: round half to even. -/
def roundHalfEven (x : ℚ) : ℤ :=
  let f := ⌊x⌋
  let r := x - f
  if r < 1 / 2 then f
  else if r > 1 / 2 then f + 1
  else if f % 2 = 0 then f else f + 1

/-- `round(x, 2)` as applied by the enricher to means. -/
def round2 : PyFloat → PyFloat
  | .finite q => .finite ((roundHalfEven (q * 100) : ℚ) / 100)
  | x => x

/-- `np.mean` of a nonempty list of Python floats. -/
def pyMean (l : List PyFloat) : PyFloat :=
  pyDivNat (pySum l) l.length

/-- Python `int(x)` on a float: truncation toward zero for finite values,
`OverflowError` for infinities, `ValueError` for nan — neither is caught
in the enricher. -/
def pyInt : PyFloat → Except PyExc Int
  | .finite q => .ok (if 0 ≤ q then ⌊q⌋ else -⌊-q⌋)
  | .nan => .error .valueError
  | _ => .error .overflowError

/-- The forecast-cache loading loop of `get_regional_weather_features`
(source lines 168-177): load every configured file, keyed by county
name; any missing file (`FileNotFoundError`, modelled by the cache
returning `none`) makes the whole load fail. -/
def loadForecasts (cache : String → Option JVal) :
    List String → Option (List (String × JVal))
  | [] => some []
  | f :: fs =>
    match cache f with
    | none => none
    | some doc => (loadForecasts cache fs).map (fun r => (countyOfFile f, doc) :: r)

/-- The non-missing lookups of one element over the region's averaging
towns (source lines 183-188): towns whose county is not in the loaded
forecasts, and lookups returning the missing marker, contribute
nothing. -/
def elementSamples (forecasts : List (String × JVal)) (cfg : WeatherCfg)
    (element_name : String) (target : Int) (pt : JVal → Option Int) :
    List PyFloat :=
  cfg.avg_towns.filterMap (fun ct =>
    match forecasts.lookup ct.1 with
    | some doc => get_forecast_value doc ct.2 element_name target pt
    | none => none)

/-- The averaged feature of one element for one horizon (source lines
190-191): the rounded mean of the present samples, or the `np.nan`
marker when every sample is missing — never zero. -/
def meanFeature (samples : List PyFloat) : Option PyFloat :=
  if samples.isEmpty then none else some (round2 (pyMean samples))

/-- The weather-code feature of one horizon (source lines 193-198): read
once from the region's designated town and converted with `int`, which
raises on non-finite values (nothing catches that in the enricher). -/
def codeFeature (forecasts : List (String × JVal)) (cfg : WeatherCfg)
    (target : Int) (pt : JVal → Option Int) : Except PyExc (Option PyFloat) :=
  match forecasts.lookup cfg.code_town.1 with
  | some doc =>
    match get_forecast_value doc cfg.code_town.2 "天氣現象" target pt with
    | some w => do
      let i ← pyInt w
      pure (some (.finite (i : ℚ)))
    | none => pure none
  | none => pure none

/-- One horizon of the enricher's feature loop (source lines 179-198). -/
def horizonFeatures (forecasts : List (String × JVal)) (cfg : WeatherCfg)
    (suffix : String) (target : Int) (pt : JVal → Option Int) :
    Except PyExc (List (String × Option PyFloat)) := do
  let codeF ← codeFeature forecasts cfg target pt
  pure [("TEMP" ++ suffix,
          meanFeature (elementSamples forecasts cfg "平均溫度" target pt)),
        ("WIND" ++ suffix,
          meanFeature (elementSamples forecasts cfg "風速" target pt)),
        ("W_CODE" ++ suffix, codeF)]

/-- Source `get_regional_weather_features` (source lines 161-200): a
region without a weather profile gets the empty feature set; a missing
cached forecast file for any required county short-circuits the region
to the empty feature set; otherwise the two horizons (now, +12h = +720
minutes) are computed in order. -/
def get_regional_weather_features (cache : String → Option JVal)
    (region : String) (effective_time : Int) (pt : JVal → Option Int) :
    Except PyExc (List (String × Option PyFloat)) :=
  match WEATHER_CONFIG.lookup region with
  | none => .ok []
  | some cfg =>
    match loadForecasts cache cfg.forecast_files with
    | none => .ok []
    | some forecasts => do
      let f1 ← horizonFeatures forecasts cfg "_now" effective_time pt
      let f2 ← horizonFeatures forecasts cfg "_future_12h" (effective_time + 720) pt
      pure (f1 ++ f2)

deriving instance DecidableEq for Except

theorem loadForecasts_missing (cache : String → Option JVal)
    (files : List String) (h : ∃ f ∈ files, cache f = none) :
    loadForecasts cache files = none := by
  induction files with
  | nil => simp at h
  | cons f fs ih =>
    obtain ⟨f0, hf0, hc⟩ := h
    rw [loadForecasts]
    rcases List.mem_cons.mp hf0 with rfl | hmem
    · rw [hc]
    · cases hcf : cache f with
      | none => rfl
      | some doc => rw [ih ⟨f0, hmem, hc⟩]; rfl

/-- The external inputs of one pipeline run: the live generation feed
(`none` models a `requests` exception), the net outcome of the demand
fetch, the static plant map CSV (`none` models `FileNotFoundError`), the
forecast cache, the time oracle, and the run's effective time (floored
to the 10-minute boundary by the caller) in minutes and as the formatted
timestamp string. -/
structure PipelineEnv where
  aaData : Option (List (List String))
  demandRow : Option ℚ
  plantMap : Option (List (String × Option String))
  cache : String → Option JVal
  pt : JVal → Option Int
  nowMin : Int
  nowStr : String

/-- The persistent state a run reads and writes: the `RunState` file (a
set of unit names; `none` models absent-or-corrupt), the fluctuation log
(entries modelled structurally as timestamp, plant count, added set,
missing set — the textual sorting of names is presentation only), the
unknown-plants log, the per-unit details log, the demand CSV and the
segmented per-(region, fuel_type) tables. -/
structure World where
  stateFile : Option (Finset String)
  flucLog : List (String × ℕ × Finset String × Finset String)
  unknownLog : List (String × List String)
  unitDetails : List (String × String × String × String)
  demandCsv : List (String × ℚ)
  tables : String × String → List AggRow

/-- How one pipeline invocation ends. -/
inductive RunOutcome where
  | fetchFailed
  | noRecords
  | crashed (e : PyExc)
  | completed
deriving DecidableEq

/-- The weather loop of `run_pipeline` (source lines 362-365): enrich
every distinct region in order; an uncaught exception inside
`get_regional_weather_features` aborts the loop (and the run). -/
def computeWeather (env : PipelineEnv) :
    List String → Except PyExc (List (String × List (String × Option PyFloat)))
  | [] => .ok []
  | rg :: rest => do
    let f ← get_regional_weather_features env.cache rg env.nowMin env.pt
    let r ← computeWeather env rest
    pure ((rg, f) :: r)

/-- Whether the weather join leaves the aggregation without its feature
columns.  `weather_df = df_merged['REGION'].map(cache).apply(pd.Series)`
(source line 366) has as columns the union of the keys of the per-region
feature dicts; a non-empty dict always carries all six feature keys, so
the six columns named by `agg_funcs` (source lines 369-372) exist iff
some region of the run has a non-empty feature dict.  When every dict is
empty, `groupby(...).agg(agg_funcs)` (source line 374) raises an
uncaught `KeyError`. -/
def aggColumnsMissing
    (wcache : List (String × List (String × Option PyFloat))) : Bool :=
  wcache.all (fun p => p.2.isEmpty)

/-- Source `run_pipeline` (source lines 245-405) as a transformer of the
persistent world: a failed feed fetch aborts immediately; otherwise the
demand row is appended, the feed rows are parsed, an empty record set
aborts; then the unit diff is logged and the state file overwritten,
regions are assigned and the unknown/detail logs appended, the regions
are enriched (a crash there ends the run with the world as updated so
far), the weather columns are joined (when every region's feature dict
is empty the aggregation's `agg` call raises an uncaught `KeyError`,
again ending the run with the world as updated so far), and finally the
aggregated rows are upserted into the segmented tables. -/
def run_pipeline (env : PipelineEnv) (w : World) : World × RunOutcome :=
  match env.aaData with
  | none => (w, .fetchFailed)
  | some live_data =>
    let w1 := { w with demandCsv := w.demandCsv ++
      (match env.demandRow with
       | some v => [(env.nowStr, v)]
       | none => []) }
    let records := parseRecords env.nowStr live_data
    if records.isEmpty then (w1, .noRecords)
    else
      let previous := read_previous_units w.stateFile
      let current := (records.map (fun r => r.unit_name)).toFinset
      let diffres := unitDiff current previous
      let w2 := { w1 with
        flucLog := w1.flucLog ++ [(env.nowStr, current.card, diffres.1, diffres.2)],
        stateFile := some current }
      let pm := env.plantMap.getD []
      let assigned := records.map (fun r => (r, resolveRegion pm r.unit_name))
      let w3 := { w2 with
        unknownLog := w2.unknownLog ++
          [(env.nowStr,
            (assigned.filter (fun p => p.2 = "Unknown")).map (fun p => p.1.unit_name))],
        unitDetails := w2.unitDetails ++
          assigned.map (fun p => (env.nowStr, p.1.unit_name, p.2, p.1.fuel_type)) }
      match computeWeather env (pyUnique (assigned.map (fun p => p.2))) with
      | .error e => (w3, .crashed e)
      | .ok wcache =>
        if aggColumnsMissing wcache then (w3, .crashed .keyError)
        else
        let enriched : List EnrichedRecord := assigned.map (fun p =>
          { dt := p.1.dt, region := p.2, fuel_type := p.1.fuel_type,
            net_p := p.1.net_p, feats := (wcache.lookup p.2).getD [] })
        let agg := aggregate enriched
        let newTables :=
          (pyUnique (agg.map (fun a => (a.region, a.fuel_type)))).foldl
            (fun tb k => fun k' =>
              if k' = k then
                upsertTable (tb k) env.nowStr
                  (agg.filter (fun a => (a.region, a.fuel_type) = k))
              else tb k')
            w3.tables
        ({ w3 with tables := newTables }, .completed)

/-- A feed whose only unit resolves to North, with a cached forecast
whose weather code is the string `"inf"` for every county. -/
def envCrash : PipelineEnv :=
  { aaData := some [["<b>燃煤</b>", "", "林口#1", "", "123"]],
    demandRow := none, plantMap := none,
    cache := fun _ => some (mkForecastDoc "中正區" "天氣現象" [infCodeBlock]),
    pt := toIntOracle, nowMin := 10, nowStr := "2025-01-01 00:10:00" }

/-- An empty initial world (first-ever run). -/
def emptyWorld : World :=
  { stateFile := none, flucLog := [], unknownLog := [], unitDetails := [],
    demandCsv := [], tables := fun _ => [] }

/-- Counterexample to the converse half of C7 as stated: a run whose
fetch succeeds can still terminate abnormally — here the North weather
code parses to `float("inf")` and the uncaught `OverflowError` from
`int(...)` aborts the run after the `RunState` file was overwritten and
the fluctuation log appended, but before any table is written; so a run
may neither complete nor leave prior state unchanged. -/
theorem C7_counterexample :
    (run_pipeline envCrash emptyWorld).2 = .crashed .overflowError ∧
    (run_pipeline envCrash emptyWorld).2 ≠ .completed ∧
    (run_pipeline envCrash emptyWorld).1.stateFile = some {"林口#1"} ∧
    emptyWorld.stateFile = none ∧
    (run_pipeline envCrash emptyWorld).1.flucLog.length = 1 ∧
    emptyWorld.flucLog.length = 0 := by
  refine ⟨by decide, by decide, by decide, rfl, by decide, rfl⟩

/-- C7 (amended).  Fetch-failure atomicity: when the fetch of the live
generation feed fails, the run aborts at once and performs no
aggregation and no persistence — the whole world (RunState, fluctuation
log, segmented tables, demand CSV, every log) is exactly as before the
run.  Conversely the segmented tables change only in runs that complete;
but a fetch-successful run may still end abnormally after updating
RunState and the fluctuation log (see the counterexample), so "completes
or leaves all prior state unchanged" does not hold of the whole state. -/
theorem C7_fetch_atomicity :
    (∀ (env : PipelineEnv) (w : World), env.aaData = none →
      run_pipeline env w = (w, .fetchFailed)) ∧
    (∀ (env : PipelineEnv) (w : World),
      (run_pipeline env w).1.tables = w.tables ∨
      (run_pipeline env w).2 = .completed) := by
  constructor
  · intro env w h
    rw [run_pipeline, h]
  · intro env w
    rw [run_pipeline]
    cases env.aaData with
    | none => left; rfl
    | some ld =>
      dsimp only
      split
      · left; rfl
      · split
        · left; rfl
        · split
          · left; rfl
          · right; rfl

/-- An environment whose feed fetch fails. -/
def envFetchFail : PipelineEnv :=
  { aaData := none, demandRow := some 5, plantMap := none,
    cache := fun _ => none, pt := toIntOracle, nowMin := 0,
    nowStr := "2025-01-01 00:00:00" }

/-- Witness for C7: a failed fetch leaves the world untouched, and in
the crashing run of the counterexample the tables are still untouched
(only runs that complete write tables). -/
theorem C7_fetch_atomicity_witness :
    run_pipeline envFetchFail emptyWorld = (emptyWorld, .fetchFailed) ∧
    ((run_pipeline envCrash emptyWorld).1.tables = emptyWorld.tables ∨
     (run_pipeline envCrash emptyWorld).2 = .completed) :=
  ⟨C7_fetch_atomicity.1 envFetchFail emptyWorld rfl,
   C7_fetch_atomicity.2 envCrash emptyWorld⟩

/-- C6 (amended).  WeatherEnricher missing-value policy: a region whose
weather profile is absent returns the empty feature set; a missing
cached forecast document for any required county short-circuits the
whole region's enrichment to the empty feature set without raising; and
whenever enrichment returns a feature set but every averaging-town
temperature lookup was missing, the `TEMP_now` feature is the missing
marker (`np.nan`), never zero.  The run then continues only while some
region of the run has a populated feature set: when every region's
feature dict is empty, the weather join leaves the aggregation without
its feature columns and `agg` raises an uncaught `KeyError`, crashing
the run (see the counterexample); when some region's dict is non-empty,
the run completes. -/
theorem C6_missing_policy :
    (∀ (cache : String → Option JVal) (region : String) (et : Int)
        (pt : JVal → Option Int),
      WEATHER_CONFIG.lookup region = none →
      get_regional_weather_features cache region et pt = .ok []) ∧
    (∀ (cache : String → Option JVal) (region : String) (et : Int)
        (pt : JVal → Option Int) (cfg : WeatherCfg),
      WEATHER_CONFIG.lookup region = some cfg →
      (∃ f ∈ cfg.forecast_files, cache f = none) →
      get_regional_weather_features cache region et pt = .ok []) ∧
    (∀ (cache : String → Option JVal) (region : String) (et : Int)
        (pt : JVal → Option Int) (cfg : WeatherCfg)
        (forecasts : List (String × JVal)) (fs : List (String × Option PyFloat)),
      WEATHER_CONFIG.lookup region = some cfg →
      loadForecasts cache cfg.forecast_files = some forecasts →
      (∀ ct ∈ cfg.avg_towns, ∀ doc, forecasts.lookup ct.1 = some doc →
        get_forecast_value doc ct.2 "平均溫度" et pt = none) →
      get_regional_weather_features cache region et pt = .ok fs →
      fs.lookup "TEMP_now" = some none) ∧
    (∀ (env : PipelineEnv) (w : World) (ld : List (List String))
        (wcache : List (String × List (String × Option PyFloat))),
      env.aaData = some ld →
      (parseRecords env.nowStr ld).isEmpty = false →
      computeWeather env
        (pyUnique (((parseRecords env.nowStr ld).map
          (fun r => (r, resolveRegion (env.plantMap.getD []) r.unit_name))).map
            (fun p => p.2))) = .ok wcache →
      aggColumnsMissing wcache = true →
      (run_pipeline env w).2 = .crashed .keyError) ∧
    (∀ (env : PipelineEnv) (w : World) (ld : List (List String))
        (wcache : List (String × List (String × Option PyFloat))),
      env.aaData = some ld →
      (parseRecords env.nowStr ld).isEmpty = false →
      computeWeather env
        (pyUnique (((parseRecords env.nowStr ld).map
          (fun r => (r, resolveRegion (env.plantMap.getD []) r.unit_name))).map
            (fun p => p.2))) = .ok wcache →
      aggColumnsMissing wcache = false →
      (run_pipeline env w).2 = .completed) := by
  refine ⟨?_, ?_, ?_, ?_, ?_⟩
  · intro cache region et pt h
    rw [get_regional_weather_features, h]
  · intro cache region et pt cfg hcfg hmiss
    rw [get_regional_weather_features, hcfg]
    dsimp only
    rw [loadForecasts_missing cache _ hmiss]
  · intro cache region et pt cfg forecasts fs hcfg hload hnone h
    rw [get_regional_weather_features, hcfg] at h
    dsimp only at h
    rw [hload] at h
    dsimp only at h
    have htemps : elementSamples forecasts cfg "平均溫度" et pt = [] := by
      rw [elementSamples, List.filterMap_eq_nil_iff]
      intro ct hct
      cases hl : forecasts.lookup ct.1 with
      | none => rfl
      | some doc => exact hnone ct hct doc hl
    rw [horizonFeatures] at h
    cases hc1 : codeFeature forecasts cfg et pt with
    | error e =>
      rw [hc1] at h
      simp [bind, Except.bind] at h
    | ok c1 =>
      rw [hc1] at h
      cases hh2 : horizonFeatures forecasts cfg "_future_12h" (et + 720) pt with
      | error e =>
        rw [hh2] at h
        simp [bind, Except.bind, pure, Except.pure] at h
      | ok f2 =>
        rw [hh2] at h
        simp only [bind, Except.bind, pure, Except.pure, Except.ok.injEq] at h
        rw [← h, htemps]
        rfl
  · intro env w ld wcache henv hrec hcw hcols
    rw [run_pipeline, henv]
    dsimp only
    rw [hrec]
    simp only [Bool.false_eq_true, if_false]
    rw [hcw]
    dsimp only
    rw [hcols]
    simp only [if_pos]
  · intro env w ld wcache henv hrec hcw hcols
    rw [run_pipeline, henv]
    dsimp only
    rw [hrec]
    simp only [Bool.false_eq_true, if_false]
    rw [hcw]
    dsimp only
    rw [hcols]
    simp only [Bool.false_eq_true, if_false]

/-- The East region's weather configuration, for the witnesses. -/
def eastCfg : WeatherCfg :=
  { avg_towns := [("花蓮縣", "花蓮市")],
    code_town := ("花蓮縣", "花蓮市"),
    forecast_files := ["花蓮縣_forecast.json"] }

/-- A run whose only unit resolves to East while 花蓮縣's forecast file
is missing and every other county's file is cached: forecast coverage is
partial, and every region of the run enriches to the empty feature
set. -/
def envC6 : PipelineEnv :=
  { aaData := some [["<b>燃煤</b>", "", "花蓮#1", "", "123"]],
    demandRow := none, plantMap := none,
    cache := fun f => if f = "花蓮縣_forecast.json" then none else some (.obj []),
    pt := toIntOracle, nowMin := 10, nowStr := "2025-01-01 00:10:00" }

/-- A run identical to `envC6` except that every forecast file is cached
with a document answering the temperature lookups, so East's feature set
is populated and the run completes. -/
def envOk : PipelineEnv :=
  { aaData := some [["<b>燃煤</b>", "", "花蓮#1", "", "123"]],
    demandRow := none, plantMap := none,
    cache := fun _ => some (mkForecastDoc "花蓮市" "平均溫度" [tempBlock]),
    pt := toIntOracle, nowMin := 570, nowStr := "2025-01-01 09:30:00" }

/-- Counterexample to C6 as stated: with partial forecast coverage
(花蓮縣's cached document missing, 臺北市's present) a run whose only
region is East enriches every region of the run to the empty feature
set; the enricher itself degrades softly, but the aggregation's `agg`
call then raises an uncaught `KeyError`, so the run does *not*
continue — partial forecast coverage can crash aggregation. -/
theorem C6_counterexample :
    envC6.cache "花蓮縣_forecast.json" = none ∧
    envC6.cache "臺北市_forecast.json" = some (.obj []) ∧
    get_regional_weather_features envC6.cache "East" 10 toIntOracle = .ok [] ∧
    (run_pipeline envC6 emptyWorld).2 = .crashed .keyError ∧
    (run_pipeline envC6 emptyWorld).2 ≠ .completed := by
  refine ⟨rfl, rfl, rfl, by decide, by decide⟩

/-- Witness for C6: a region without a profile yields the empty feature
set; East with its only forecast file missing yields the empty feature
set; East with a document that answers no temperature lookup yields a
feature set whose `TEMP_now` is the missing marker; the all-empty run
of `envC6` crashes at aggregation while the populated run of `envOk`
completes. -/
theorem C6_missing_policy_witness :
    get_regional_weather_features (fun _ => none) "Unknown" 0 toIntOracle
      = .ok [] ∧
    get_regional_weather_features (fun _ => none) "East" 0 toIntOracle
      = .ok [] ∧
    ([("TEMP_now", (none : Option PyFloat)), ("WIND_now", none), ("W_CODE_now", none),
      ("TEMP_future_12h", none), ("WIND_future_12h", none),
      ("W_CODE_future_12h", none)].lookup "TEMP_now") = some none ∧
    (run_pipeline envC6 emptyWorld).2 = .crashed .keyError ∧
    (run_pipeline envOk emptyWorld).2 = .completed := by
  refine ⟨?_, ?_, ?_, ?_, ?_⟩
  · exact C6_missing_policy.1 (fun _ => none) "Unknown" 0 toIntOracle (by decide)
  · exact C6_missing_policy.2.1 (fun _ => none) "East" 0 toIntOracle eastCfg
      (by decide) ⟨"花蓮縣_forecast.json", by decide, rfl⟩
  · exact C6_missing_policy.2.2.1 (fun _ => some (.obj [])) "East" 0 toIntOracle
      eastCfg [("花蓮縣", .obj [])] _ (by decide) rfl
      (by
        intro ct hct doc hdoc
        obtain rfl := List.mem_singleton.mp hct
        have : JVal.obj [] = doc := by
          simpa [List.lookup] using hdoc
        rw [← this]
        rfl)
      rfl
  · exact C6_missing_policy.2.2.2.1 envC6 emptyWorld _ _ rfl (by decide) rfl
      (by decide)
  · exact C6_missing_policy.2.2.2.2 envOk emptyWorld _ _ rfl (by decide) rfl
      (by decide)
